import Mathlib

/-!
Verification development for the MOSFET lifetime-simulation repository.

The numerical core of the repository is embedded shallowly:

* `lifetime_estimation.py` — rainflow cycle counting, Coffin-Manson-Arrhenius
  cycles-to-failure, Miner damage accumulation, lifetime estimation;
* `thermal_simulation.py` — power-dissipation model, nonlinear thermal RC
  network derivative, waveform interpolation.

Modelling conventions: Python float arithmetic is modelled exactly; the purely
rational parts (rainflow, power model, thermal derivative) are over `ℚ`
(decimal literals such as 0.005 become the exact rationals they denote), and
the parts using `exp` and real powers (cycles-to-failure and everything
downstream of it) are over `ℝ`.  The float infinity returned by
`estimate_lifetime_years` for non-positive damage is modelled as `⊤` in
`WithTop ℝ`.  `numpy` and `scipy` library calls are modelled by their
documented behaviour.
-/

namespace Mosfet

/-! ### Rainflow cycle extraction (`lifetime_estimation.py`, `rainflow`) -/

/-- Model of `np.diff(signal)`: the list of consecutive differences. -/
def npDiff (s : List ℚ) : List ℚ := (s.zip s.tail).map fun p => p.2 - p.1

/-- Entry `i` of `np.diff(signal)` (out-of-range reads never occur on the
indices the algorithm uses). -/
def dval (s : List ℚ) (i : ℕ) : ℚ := (npDiff s).getD i 0

/-- Index `j` is produced by the `peaks` computation
(`diff[:-1] > 0 & diff[1:] <= 0`, shifted by one) or by the `valleys`
computation (`diff[:-1] < 0 & diff[1:] >= 0`, shifted by one).  Such `j`
always satisfies `1 ≤ j ≤ len(signal) - 2`. -/
def isInteriorExtremum (s : List ℚ) (j : ℕ) : Prop :=
  1 ≤ j ∧ j + 1 < s.length ∧
    ((0 < dval s (j-1) ∧ dval s j ≤ 0) ∨ (dval s (j-1) < 0 ∧ 0 ≤ dval s j))

instance (s : List ℚ) (j : ℕ) : Decidable (isInteriorExtremum s j) := by
  unfold isInteriorExtremum; infer_instance

/-- Model of
`extrema = np.sort(np.concatenate((peaks, valleys, [0, len(signal)-1])))`.
Peak and valley indices are disjoint, already ascending, and lie strictly
between `0` and `len(signal)-1`, so the sorted concatenation is `0`, then the
interior extrema in ascending order, then `len(signal)-1`.  (For the empty
signal Python would produce the observably equivalent `[-1, 0]`; natural
subtraction gives `[0, 0]` here, and no signal value is ever read in that
case.) -/
def extrema (s : List ℚ) : List ℕ :=
  0 :: ((List.range s.length).filter (fun j => decide (isInteriorExtremum s j)) ++
    [s.length - 1])

/-- The values `signal[extrema[i]]` the stack machine reads; stack entries are
indices into this list, exactly as the Python stack holds indices into
`extrema`. -/
def vals (s : List ℚ) : List ℚ := (extrema s).map (fun j => s.getD j 0)

/-- The inner `while len(stack) >= 3` loop of `rainflow`, run right after
index `i3` has been pushed.  The loop only ever removes the *middle* entry
`stack[-2]` of the top three, so the just-pushed index stays on top
throughout; holding it as a separate argument makes the recursion structural.
`x1, x2, x3` are `signal[extrema[i1]]` etc.; a full cycle
`[delta_T/2, (x1+x2)/2, 1]` is extracted while
`delta_T >= min_delta_T` and `abs(x3-x2) <= abs(x2-x1)`. -/
def reduceStack (vs : List ℚ) (mdt : ℚ) (i3 : ℕ) :
    List ℕ → List (ℚ × ℚ × ℚ) → List ℕ × List (ℚ × ℚ × ℚ)
  | i2 :: i1 :: rest, cycles =>
    if mdt ≤ |vs.getD i2 0 - vs.getD i1 0| ∧
        |vs.getD i3 0 - vs.getD i2 0| ≤ |vs.getD i2 0 - vs.getD i1 0| then
      reduceStack vs mdt i3 (i1 :: rest)
        (cycles ++ [(|vs.getD i2 0 - vs.getD i1 0| / 2,
          (vs.getD i1 0 + vs.getD i2 0) / 2, 1)])
    else (i3 :: i2 :: i1 :: rest, cycles)
  | st, cycles => (i3 :: st, cycles)

/-- The trailing `while len(stack) >= 2` loop of `rainflow`: drain the stack
pairwise from the top, emitting a residual half cycle (weight `0.5`) for each
adjacent pair whose swing reaches the threshold. -/
def drainStack (vs : List ℚ) (mdt : ℚ) :
    List ℕ → List (ℚ × ℚ × ℚ) → List (ℚ × ℚ × ℚ)
  | i2 :: i1 :: rest, cycles =>
    drainStack vs mdt (i1 :: rest)
      (if mdt ≤ |vs.getD i2 0 - vs.getD i1 0| then
        cycles ++ [(|vs.getD i2 0 - vs.getD i1 0| / 2,
          (vs.getD i1 0 + vs.getD i2 0) / 2, 1/2)]
      else cycles)
  | _, cycles => cycles

/-- The main `for i in range(len(extrema) - 1)` loop of `rainflow`: push each
index in turn and run the inner reduction.  Note the loop bound
`len(extrema) - 1`: the final entry of `extrema` is never pushed. -/
def rainflowStack (s : List ℚ) (mdt : ℚ) : List ℕ × List (ℚ × ℚ × ℚ) :=
  (List.range ((extrema s).length - 1)).foldl
    (fun sc i => reduceStack (vals s) mdt i sc.1 sc.2) ([], [])

/-- Embedding of `rainflow(signal, min_delta_T)`: returns the list of cycles
`(amplitude, mean, weight)` and their count. -/
def rainflow (s : List ℚ) (mdt : ℚ) : List (ℚ × ℚ × ℚ) × ℕ :=
  let cycles := drainStack (vals s) mdt (rainflowStack s mdt).1 (rainflowStack s mdt).2
  (cycles, cycles.length)

/-! ### Cycles-to-failure, Miner damage, lifetime
(`lifetime_estimation.py`) -/

/-- Lifetime model parameters, the `params` dict with keys `A`, `n`, `Ea`. -/
structure LifetimeParams where
  A : ℝ
  n : ℝ
  Ea : ℝ

/-- Boltzmann constant in eV/K:
`kb = boltzmann_constant / 1.60218e-19` with
`scipy.constants.k = 1.380649e-23` (exact SI value). -/
noncomputable def kb : ℝ := 1.380649e-23 / 1.60218e-19

/-- Embedding of `calculate_cycles_to_failure(delta_T, T_mean, params)`:
`N_f = A * delta_T ** -n * exp(Ea / (kb * T_kelvin))`, clamped below by 1. -/
noncomputable def calculate_cycles_to_failure (delta_T T_mean : ℝ)
    (params : LifetimeParams) : ℝ :=
  let T_kelvin := T_mean + 273.15
  let N_f := params.A * delta_T ^ (-params.n) * Real.exp (params.Ea / (kb * T_kelvin))
  max N_f 1

/-- Embedding of `miners_rule_degradation(cycles, params)`: for an empty cycle
list return `(0, [])`, otherwise sum `weight / N_f` over the cycles, record
`(delta_T, N_f)` per cycle, and floor the damage at `1e-10`. -/
noncomputable def miners_rule_degradation (cycles : List (ℚ × ℚ × ℚ))
    (params : LifetimeParams) : ℝ × List (ℝ × ℝ) :=
  if cycles = [] then (0, [])
  else
    let damage := (cycles.map fun c =>
      (c.2.2 : ℝ) / calculate_cycles_to_failure (c.1 : ℝ) (c.2.1 : ℝ) params).sum
    let cycles_to_failure := cycles.map fun c =>
      ((c.1 : ℝ), calculate_cycles_to_failure (c.1 : ℝ) (c.2.1 : ℝ) params)
    (max damage 1e-10, cycles_to_failure)

/-- Embedding of `estimate_lifetime_years(degradation, cycles_per_year)`:
python returns `float('inf')` for `degradation <= 0` (modelled as `⊤`), else
`min((1/degradation)/cycles_per_year, 100)`.  The Python default argument
`cycles_per_year = 100000` is passed explicitly by callers here. -/
noncomputable def estimate_lifetime_years (degradation : ℝ)
    (cycles_per_year : ℝ) : WithTop ℝ :=
  if degradation ≤ 0 then ⊤
  else ((min ((1 / degradation) / cycles_per_year) 100 : ℝ) : WithTop ℝ)

/-- Embedding of `estimate_lifetime(t_j, lifetime_params)`: rainflow with
`min_delta_T = 0.1`, Miner damage, then lifetime with the default
`cycles_per_year = 100000`. -/
noncomputable def estimate_lifetime (t_j : List ℚ)
    (lifetime_params : LifetimeParams) : ℝ × WithTop ℝ × ℕ × List (ℝ × ℝ) :=
  let rf := rainflow t_j (1/10)
  let md := miners_rule_degradation rf.1 lifetime_params
  (md.1, estimate_lifetime_years md.1 100000, rf.2, md.2)

/-! ### Power dissipation and thermal network (`thermal_simulation.py`) -/

/-- Device parameter record, the per-device dict of `mosfet_params.py`
restricted to the fields the simulation core reads. -/
structure MOSFETParams where
  R_DS_ON_25 : ℚ
  R_DS_ON_TEMP_COEFF : ℚ
  T_ON_25 : ℚ
  T_OFF_25 : ℚ
  E_OSS_25 : ℚ
  Q_RR_25 : ℚ
  K_T_SW : ℚ
  K_E_OSS : ℚ
  K_Q_RR : ℚ
  C_OSS : ℚ
  R_TH : List ℚ
  C_TH : List ℚ
  COOLING_COEFF : ℚ
  SURFACE_AREA : ℚ

/-- Embedding of `calculate_power_dissipation(v_ds, i_d, t_j, params, f_sw)`,
returning `(p_total, p_cond, p_sw, p_cap)`. -/
def calculate_power_dissipation (v_ds i_d t_j : ℚ) (params : MOSFETParams)
    (f_sw : ℚ) : ℚ × ℚ × ℚ × ℚ :=
  let r_ds_on := params.R_DS_ON_25 * (1 + params.R_DS_ON_TEMP_COEFF * (t_j - 25))
  let p_cond := i_d ^ 2 * r_ds_on
  let t_on := params.T_ON_25 * (1 + params.K_T_SW * (t_j - 25))
  let t_off := params.T_OFF_25 * (1 + params.K_T_SW * (t_j - 25))
  let e_oss := params.E_OSS_25 * (1 + params.K_E_OSS * (t_j - 25))
  let q_rr := params.Q_RR_25 * (1 + params.K_Q_RR * (t_j - 25))
  let e_on := 1/2 * v_ds * i_d * t_on
  let e_off := 1/2 * v_ds * i_d * t_off
  let e_rr := v_ds * q_rr
  let p_sw := (e_on + e_off + e_oss + e_rr) * f_sw
  let p_cap := 1/2 * params.C_OSS * v_ds ^ 2 * f_sw
  let p_total := p_cond + p_sw + p_cap
  (p_total, p_cond, p_sw, p_cap)

/-- Embedding of `non_linear_thermal_properties(t_j, params)`: resistances
scale by `1 + 0.005 (t_j - 25)`, capacitances by `1 + 0.002 (t_j - 25)`. -/
def non_linear_thermal_properties (t_j : ℚ) (params : MOSFETParams) :
    List ℚ × List ℚ :=
  (params.R_TH.map fun r => r * (1 + 5/1000 * (t_j - 25)),
   params.C_TH.map fun c => c * (1 + 2/1000 * (t_j - 25)))

/-- Embedding of `thermal_model(t, y, params, v_ds_func, i_d_func, t_amb,
f_sw)`: the derivative vector `dy` of the temperature-rise state. -/
def thermal_model (t : ℚ) (y : List ℚ) (params : MOSFETParams)
    (v_ds_func i_d_func : ℚ → ℚ) (t_amb f_sw : ℚ) : List ℚ :=
  let t_j := y.getD 0 0 + t_amb
  let rc := non_linear_thermal_properties t_j params
  let r_th := rc.1
  let c_th := rc.2
  let n := r_th.length
  let v_ds := v_ds_func t
  let i_d := i_d_func t
  let p_total := (calculate_power_dissipation v_ds i_d t_j params f_sw).1
  let p_cool := params.COOLING_COEFF * params.SURFACE_AREA * (t_j - t_amb)
  (List.range n).map fun i =>
    if i = 0 then
      (p_total - p_cool -
        (y.getD i 0 - (if i + 1 < n then y.getD (i+1) 0 else 0)) / r_th.getD i 0) /
        c_th.getD i 0
    else if i = n - 1 then
      ((y.getD (i-1) 0 - y.getD i 0) / r_th.getD i 0 -
        (y.getD i 0 - t_amb) / r_th.getD i 0) / c_th.getD i 0
    else
      ((y.getD (i-1) 0 - y.getD i 0) / r_th.getD i 0 -
        (y.getD i 0 - y.getD (i+1) 0) / r_th.getD (i+1) 0) / c_th.getD i 0

/-! ### Waveform interpolation (`thermal_simulation.py`,
`create_interpolation_function`) -/

/-- Piecewise-linear interpolation over time-sorted samples with linear
extrapolation from the boundary segments, the documented behaviour of
`scipy.interpolate.interp1d(..., kind=linear, bounds_error=False,
fill_value=extrapolate)`. -/
def interp1dLinear : List (ℚ × ℚ) → ℚ → ℚ
  | p :: q :: r :: rest, x =>
    if x ≤ q.1 then p.2 + (q.2 - p.2) / (q.1 - p.1) * (x - p.1)
    else interp1dLinear (q :: r :: rest) x
  | [p, q], x => p.2 + (q.2 - p.2) / (q.1 - p.1) * (x - p.1)
  | _, _ => 0

/-- Comparison on sample times, used to model the sorting `interp1d` performs
when `assume_sorted` is left at its default `False`. -/
def timeLe (a b : ℚ × ℚ) : Prop := a.1 ≤ b.1

instance : DecidableRel timeLe := fun a b => inferInstanceAs (Decidable (a.1 ≤ b.1))

/-- Embedding of `create_interpolation_function(waveform)`.  The function
itself performs no validation: it hands the samples to `scipy`'s `interp1d`,
which (with `assume_sorted=False`, the default) first *sorts* the sample
times — so non-monotonic input is reordered, not rejected — and raises a
generic `ValueError` only when fewer than two samples are supplied. -/
def create_interpolation_function (waveform : List (ℚ × ℚ)) :
    Except String (ℚ → ℚ) :=
  if waveform.length < 2 then
    Except.error "x and y arrays must have at least 2 entries"
  else
    Except.ok (interp1dLinear (List.insertionSort timeLe waveform))

/-! ### Concrete device configurations used in the evaluation theorems -/

/-- Two-node configuration with unit thermal resistances and capacitances and
every electrical parameter zero; used to isolate the last node's
ambient-conduction term. -/
def paramsTwoNode : MOSFETParams := ⟨0, 0, 0, 0, 0, 0, 0, 0, 0, 0, [1, 1], [1, 1], 0, 0⟩

/-- Three-node configuration with distinct thermal resistances `[1, 2, 4]`,
unit capacitances, and every electrical parameter zero; used to expose which
resistance the interior node's derivative reads. -/
def paramsThreeNode : MOSFETParams := ⟨0, 0, 0, 0, 0, 0, 0, 0, 0, 0, [1, 2, 4], [1, 1, 1], 0, 0⟩

end Mosfet

namespace Mosfet

/-! ## Helper lemmas -/

theorem length_vals (s : List ℚ) : (vals s).length = (extrema s).length :=
  List.length_map _ _

theorem getD_mem_of_lt {l : List ℚ} {i : ℕ} (h : i < l.length) : l.getD i 0 ∈ l := by
  rw [List.getD_eq_getElem _ _ h]
  exact List.getElem_mem h

theorem lt_length_of_mem_extrema {s : List ℚ} {j : ℕ} (hs : s ≠ [])
    (hj : j ∈ extrema s) : j < s.length := by
  have hlen : 0 < s.length := List.length_pos_iff_ne_nil.mpr hs
  rcases List.mem_cons.mp hj with h0 | h1
  · omega
  · rcases List.mem_append.mp h1 with hf | hl
    · exact List.mem_range.mp (List.mem_filter.mp hf).1
    · have : j = s.length - 1 := List.mem_singleton.mp hl
      omega

theorem mem_of_mem_vals {s : List ℚ} {x : ℚ} (hs : s ≠ []) (hx : x ∈ vals s) :
    x ∈ s := by
  rcases List.mem_map.mp hx with ⟨j, hj, rfl⟩
  exact getD_mem_of_lt (lt_length_of_mem_extrema hs hj)

theorem reduceStack_of_small {vs : List ℚ} {mdt : ℚ}
    (hm : ∀ x ∈ vs, ∀ y ∈ vs, x - y < mdt) (i3 : ℕ) :
    ∀ (st : List ℕ) (cy : List (ℚ × ℚ × ℚ)), (∀ i ∈ st, i < vs.length) →
      reduceStack vs mdt i3 st cy = (i3 :: st, cy) := by
  intro st
  match st with
  | [] => intro cy _; rfl
  | [i2] => intro cy _; rfl
  | i2 :: i1 :: rest =>
    intro cy hv
    have h2 : i2 < vs.length := hv i2 (by simp)
    have h1 : i1 < vs.length := hv i1 (by simp)
    have habs : |vs.getD i2 0 - vs.getD i1 0| < mdt :=
      abs_sub_lt_iff.mpr ⟨hm _ (getD_mem_of_lt h2) _ (getD_mem_of_lt h1),
        hm _ (getD_mem_of_lt h1) _ (getD_mem_of_lt h2)⟩
    simp only [reduceStack]
    rw [if_neg fun hg => absurd hg.1 (not_le.mpr habs)]

theorem foldl_reduce_of_small {vs : List ℚ} {mdt : ℚ}
    (hm : ∀ x ∈ vs, ∀ y ∈ vs, x - y < mdt) :
    ∀ (l st : List ℕ) (cy : List (ℚ × ℚ × ℚ)),
      (∀ i ∈ l, i < vs.length) → (∀ i ∈ st, i < vs.length) →
      l.foldl (fun sc i => reduceStack vs mdt i sc.1 sc.2) (st, cy) =
        (l.reverse ++ st, cy) := by
  intro l
  induction l with
  | nil => intro st cy _ _; simp
  | cons a l IH =>
    intro st cy hl hst
    have hstep : reduceStack vs mdt a (st, cy).1 (st, cy).2 = (a :: st, cy) :=
      reduceStack_of_small hm a st cy hst
    have hst2 : ∀ i ∈ a :: st, i < vs.length := by
      intro j hj
      rcases List.mem_cons.mp hj with rfl | hj
      · exact hl j (by simp)
      · exact hst j hj
    rw [List.foldl_cons, hstep, IH (a :: st) cy (fun i hi => hl i (by simp [hi])) hst2]
    simp

theorem drainStack_of_small {vs : List ℚ} {mdt : ℚ}
    (hm : ∀ x ∈ vs, ∀ y ∈ vs, x - y < mdt) :
    ∀ (st : List ℕ) (cy : List (ℚ × ℚ × ℚ)), (∀ i ∈ st, i < vs.length) →
      drainStack vs mdt st cy = cy := by
  intro st
  induction st with
  | nil => intro cy _; rfl
  | cons i2 tl IH =>
    intro cy hv
    cases tl with
    | nil => rfl
    | cons i1 rest =>
      have h2 : i2 < vs.length := hv i2 (by simp)
      have h1 : i1 < vs.length := hv i1 (by simp)
      have habs : |vs.getD i2 0 - vs.getD i1 0| < mdt :=
        abs_sub_lt_iff.mpr ⟨hm _ (getD_mem_of_lt h2) _ (getD_mem_of_lt h1),
          hm _ (getD_mem_of_lt h1) _ (getD_mem_of_lt h2)⟩
      simp only [drainStack]
      rw [if_neg (not_le.mpr habs)]
      exact IH cy (fun i hi => hv i (by simp [List.mem_cons.mp hi]))

theorem reduceStack_cycles_inv (vs : List ℚ) (mdt : ℚ) (i3 : ℕ) :
    ∀ (st : List ℕ) (cy : List (ℚ × ℚ × ℚ)),
      (∀ c ∈ cy, mdt / 2 ≤ c.1 ∧ (c.2.2 = 1 ∨ c.2.2 = 1/2)) →
      ∀ c ∈ (reduceStack vs mdt i3 st cy).2,
        mdt / 2 ≤ c.1 ∧ (c.2.2 = 1 ∨ c.2.2 = 1/2) := by
  intro st
  induction st with
  | nil => intro cy hcy; exact hcy
  | cons i2 tl IH =>
    intro cy hcy
    cases tl with
    | nil => exact hcy
    | cons i1 rest =>
      by_cases hg : mdt ≤ |vs.getD i2 0 - vs.getD i1 0| ∧
          |vs.getD i3 0 - vs.getD i2 0| ≤ |vs.getD i2 0 - vs.getD i1 0|
      · simp only [reduceStack, if_pos hg]
        apply IH
        intro c hc
        rcases List.mem_append.mp hc with h | h
        · exact hcy c h
        · rcases List.mem_singleton.mp h with rfl
          exact ⟨by linarith [hg.1], Or.inl rfl⟩
      · simp only [reduceStack, if_neg hg]
        exact hcy

theorem drainStack_cycles_inv (vs : List ℚ) (mdt : ℚ) :
    ∀ (st : List ℕ) (cy : List (ℚ × ℚ × ℚ)),
      (∀ c ∈ cy, mdt / 2 ≤ c.1 ∧ (c.2.2 = 1 ∨ c.2.2 = 1/2)) →
      ∀ c ∈ drainStack vs mdt st cy,
        mdt / 2 ≤ c.1 ∧ (c.2.2 = 1 ∨ c.2.2 = 1/2) := by
  intro st
  induction st with
  | nil => intro cy hcy; exact hcy
  | cons i2 tl IH =>
    intro cy hcy
    cases tl with
    | nil => exact hcy
    | cons i1 rest =>
      simp only [drainStack]
      apply IH
      intro c hc
      by_cases hg : mdt ≤ |vs.getD i2 0 - vs.getD i1 0|
      · rw [if_pos hg] at hc
        rcases List.mem_append.mp hc with h | h
        · exact hcy c h
        · rcases List.mem_singleton.mp h with rfl
          exact ⟨by linarith [hg], Or.inr rfl⟩
      · rw [if_neg hg] at hc
        exact hcy c hc

theorem foldl_reduce_cycles_inv (vs : List ℚ) (mdt : ℚ) :
    ∀ (l : List ℕ) (sc : List ℕ × List (ℚ × ℚ × ℚ)),
      (∀ c ∈ sc.2, mdt / 2 ≤ c.1 ∧ (c.2.2 = 1 ∨ c.2.2 = 1/2)) →
      ∀ c ∈ (l.foldl (fun sc i => reduceStack vs mdt i sc.1 sc.2) sc).2,
        mdt / 2 ≤ c.1 ∧ (c.2.2 = 1 ∨ c.2.2 = 1/2) := by
  intro l
  induction l with
  | nil => intro sc h; exact h
  | cons a l IH =>
    intro sc h
    rw [List.foldl_cons]
    exact IH _ (reduceStack_cycles_inv vs mdt a sc.1 sc.2 h)

theorem rainflow_eval_unit_spike : rainflow [0, 1, 0] (1/10) = ([(1/2, 1/2, 1/2)], 1) := by
  norm_num [rainflow, rainflowStack, vals, extrema, List.range_succ, List.filter_append,
    List.filter_singleton, isInteriorExtremum, dval, npDiff, reduceStack, drainStack,
    abs_of_nonneg, abs_of_nonpos]

theorem rainflow_eval_small_spike :
    rainflow [0, 3/20, 0] (1/10) = ([(3/40, 3/40, 1/2)], 1) := by
  norm_num [rainflow, rainflowStack, vals, extrema, List.range_succ, List.filter_append,
    List.filter_singleton, isInteriorExtremum, dval, npDiff, reduceStack, drainStack,
    abs_of_nonneg, abs_of_nonpos]

/-! ## Claim theorems -/

/-- C3: the rainflow extractor does not push every extremum of the reduced
signal.  The reduced signal of `[0, 10, 0]` is `extrema = [0, 1, 2]` (first
sample, the peak, last sample), but the loop `for i in range(len(extrema)-1)`
pushes only indices 0 and 1, so the run ends with one residual half cycle
`(5, 5, 0.5)`.  Had the final extremum (index 2) been pushed as the claim
states, the inner three-point reduction would instead have extracted the full
cycle `(5, 5, 1.0)`, as the third conjunct shows. -/
theorem rainflow_last_extremum_not_pushed_eval :
    extrema [0, 10, 0] = [0, 1, 2] ∧
    rainflow [0, 10, 0] (1/10) = ([(5, 5, 1/2)], 1) ∧
    reduceStack (vals [0, 10, 0]) (1/10) 2 [1, 0] [] = ([2, 0], [(5, 5, 1)]) := by
  refine ⟨?_, ?_, ?_⟩
  · norm_num [extrema, List.range_succ, List.filter_append, List.filter_singleton,
      isInteriorExtremum, dval, npDiff]
  · norm_num [rainflow, rainflowStack, vals, extrema, List.range_succ, List.filter_append,
      List.filter_singleton, isInteriorExtremum, dval, npDiff, reduceStack, drainStack,
      abs_of_nonneg, abs_of_nonpos]
  · norm_num [vals, extrema, List.range_succ, List.filter_append, List.filter_singleton,
      isInteriorExtremum, dval, npDiff, reduceStack, abs_of_nonneg, abs_of_nonpos]

/-- C4 (counterexample): the signal `[0, 0.15, 0]` has peak-to-peak swing
`0.15`, strictly below twice the threshold `min_delta_T = 0.1`, yet the
extractor emits one (half) cycle, not zero. -/
theorem rainflow_two_min_delta_counterexample :
    (∀ x ∈ [(0 : ℚ), 3/20, 0], ∀ y ∈ [(0 : ℚ), 3/20, 0], |x - y| < 2 * (1/10)) ∧
    (rainflow [0, 3/20, 0] (1/10)).2 ≠ 0 := by
  constructor
  · intro x hx y hy
    fin_cases hx <;> fin_cases hy <;> norm_num [abs_of_nonneg, abs_of_nonpos]
  · rw [rainflow_eval_small_spike]
    norm_num

/-- C4 (amended): a signal whose peak-to-peak swing is strictly below
`min_delta_T` itself (not twice it: the code compares the full swing, not the
amplitude, against the threshold) yields no cycles and a count of zero. -/
theorem rainflow_below_min_delta_no_cycles (s : List ℚ) (mdt : ℚ)
    (h : ∀ x ∈ s, ∀ y ∈ s, x - y < mdt) :
    rainflow s mdt = ([], 0) := by
  by_cases hs : s = []
  · subst hs; rfl
  · have hm : ∀ x ∈ vals s, ∀ y ∈ vals s, x - y < mdt := fun x hx y hy =>
      h x (mem_of_mem_vals hs hx) y (mem_of_mem_vals hs hy)
    have hidx : ∀ i ∈ List.range ((extrema s).length - 1), i < (vals s).length := by
      intro i hi
      have := List.mem_range.mp hi
      rw [length_vals]
      omega
    have hfold : rainflowStack s mdt =
        ((List.range ((extrema s).length - 1)).reverse ++ [], []) :=
      foldl_reduce_of_small hm _ [] [] hidx (by simp)
    have hdrain : drainStack (vals s) mdt (rainflowStack s mdt).1
        (rainflowStack s mdt).2 = [] := by
      rw [hfold]
      exact drainStack_of_small hm _ [] (by
        intro i hi
        simp only [List.append_nil, List.mem_reverse] at hi
        exact hidx i hi)
    show (drainStack (vals s) mdt (rainflowStack s mdt).1 (rainflowStack s mdt).2,
      (drainStack (vals s) mdt (rainflowStack s mdt).1 (rainflowStack s mdt).2).length) =
      ([], 0)
    rw [hdrain]
    rfl

/-- C4 (witness): the signal `[0, 0.05, 0]` has every pairwise difference
below `0.1`, and the extractor returns no cycles on it. -/
theorem rainflow_below_min_delta_no_cycles_witness :
    (∀ x ∈ [(0 : ℚ), 1/20, 0], ∀ y ∈ [(0 : ℚ), 1/20, 0], x - y < 1/10) ∧
    rainflow [0, 1/20, 0] (1/10) = ([], 0) :=
  ⟨by intro x hx y hy; fin_cases hx <;> fin_cases hy <;> norm_num,
   rainflow_below_min_delta_no_cycles [0, 1/20, 0] (1/10)
     (by intro x hx y hy; fin_cases hx <;> fin_cases hy <;> norm_num)⟩

/-- C9: every cycle record emitted by the rainflow extractor has amplitude at
least `min_delta_T / 2` (its peak-to-peak swing meets the threshold) and
weight `1` (full cycle) or `1/2` (residual half cycle). -/
theorem rainflow_cycle_weight_amplitude_invariant (s : List ℚ) (mdt : ℚ)
    (c : ℚ × ℚ × ℚ) (hc : c ∈ (rainflow s mdt).1) :
    mdt / 2 ≤ c.1 ∧ (c.2.2 = 1 ∨ c.2.2 = 1/2) := by
  have h1 : ∀ c ∈ (rainflowStack s mdt).2,
      mdt / 2 ≤ c.1 ∧ (c.2.2 = 1 ∨ c.2.2 = 1/2) := by
    unfold rainflowStack
    exact foldl_reduce_cycles_inv (vals s) mdt _ ([], []) (by simp)
  exact drainStack_cycles_inv (vals s) mdt _ _ h1 c hc

/-- C9 (witness): the half cycle extracted from `[0, 1, 0]` at threshold
`0.1` satisfies the invariant. -/
theorem rainflow_cycle_weight_amplitude_invariant_witness :
    ((1:ℚ)/2, (1:ℚ)/2, (1:ℚ)/2) ∈ (rainflow [0, 1, 0] (1/10)).1 ∧
    (1/10 : ℚ) / 2 ≤ 1/2 ∧ ((1:ℚ)/2 = 1 ∨ (1:ℚ)/2 = 1/2) := by
  have hmem : ((1:ℚ)/2, (1:ℚ)/2, (1:ℚ)/2) ∈ (rainflow [0, 1, 0] (1/10)).1 := by
    rw [rainflow_eval_unit_spike]
    simp
  exact ⟨hmem, rainflow_cycle_weight_amplitude_invariant [0, 1, 0] (1/10) _ hmem⟩

theorem rainflow_count_eq_length (s : List ℚ) (mdt : ℚ) :
    (rainflow s mdt).2 = (rainflow s mdt).1.length := rfl

/-- C5 (counterexample): damage exactly zero lies below the 1e-10 floor, yet
the estimator returns infinity (the code's `float('inf')` branch), not the
100-year cap. -/
theorem estimate_lifetime_years_zero_damage_counterexample :
    (0 : ℝ) ≤ 1e-10 ∧
    estimate_lifetime_years 0 100000 ≠ ((100 : ℝ) : WithTop ℝ) := by
  refine ⟨by norm_num, ?_⟩
  rw [estimate_lifetime_years, if_pos le_rfl]
  exact WithTop.top_ne_coe

/-- C5 (amended): every strictly positive damage at or below the floor 1e-10
maps to exactly the 100-year cap under the default 100000 cycles per year;
damage exactly zero must be excluded, since the code returns infinity
there. -/
theorem estimate_lifetime_years_floor_maps_to_cap (d : ℝ) (h0 : 0 < d)
    (h : d ≤ 1e-10) :
    estimate_lifetime_years d 100000 = ((100 : ℝ) : WithTop ℝ) := by
  rw [estimate_lifetime_years, if_neg (not_le.mpr h0)]
  have h1 : (1 : ℝ) / 1e-10 ≤ 1 / d := one_div_le_one_div_of_le h0 h
  norm_num at h1
  have h2 : (100 : ℝ) ≤ 1 / d / 100000 := by
    rw [one_div, le_div_iff₀ (by norm_num : (0:ℝ) < 100000)]
    linarith
  rw [min_eq_right h2]

/-- C5 (witness): the floor value itself is strictly positive and maps to the
cap. -/
theorem estimate_lifetime_years_floor_maps_to_cap_witness :
    (0 : ℝ) < 1e-10 ∧ (1e-10 : ℝ) ≤ 1e-10 ∧
    estimate_lifetime_years 1e-10 100000 = ((100 : ℝ) : WithTop ℝ) :=
  ⟨by norm_num, le_rfl,
    estimate_lifetime_years_floor_maps_to_cap 1e-10 (by norm_num) le_rfl⟩

/-- C6 (counterexample): with parameters `A = 1, n = 1, Ea = 0` and
`T_mean = 25`, both raw cycles-to-failure values at amplitudes 2 and 3 fall
below 1 and are clamped to 1, so the function is not strictly decreasing even
though `n > 0` and `0 < 2 < 3`. -/
theorem calculate_cycles_to_failure_clamp_counterexample :
    (0 : ℝ) < (LifetimeParams.mk 1 1 0).n ∧ (0 : ℝ) < 2 ∧ (2 : ℝ) < 3 ∧
    ¬ calculate_cycles_to_failure 3 25 ⟨1, 1, 0⟩ <
        calculate_cycles_to_failure 2 25 ⟨1, 1, 0⟩ := by
  refine ⟨by norm_num, by norm_num, by norm_num, ?_⟩
  have h2 : calculate_cycles_to_failure 2 25 ⟨1, 1, 0⟩ = 1 := by
    simp only [calculate_cycles_to_failure]
    rw [Real.rpow_neg_one, zero_div, Real.exp_zero]
    exact max_eq_right (by norm_num)
  have h3 : calculate_cycles_to_failure 3 25 ⟨1, 1, 0⟩ = 1 := by
    simp only [calculate_cycles_to_failure]
    rw [Real.rpow_neg_one, zero_div, Real.exp_zero]
    exact max_eq_right (by norm_num)
  rw [h2, h3]
  exact lt_irrefl 1

/-- C6 (amended): for fixed mean temperature and `n_exp > 0`,
cycles-to-failure is strictly decreasing in the amplitude wherever the clamp
at 1 is inactive at the smaller amplitude: if
`calculate_cycles_to_failure dT1 T_mean params > 1` and `0 < dT1 < dT2`, then
the value at `dT2` is strictly smaller. -/
theorem calculate_cycles_to_failure_strict_anti (params : LifetimeParams)
    (T_mean dT1 dT2 : ℝ) (hn : 0 < params.n) (h1 : 0 < dT1) (h12 : dT1 < dT2)
    (hcl : 1 < calculate_cycles_to_failure dT1 T_mean params) :
    calculate_cycles_to_failure dT2 T_mean params <
      calculate_cycles_to_failure dT1 T_mean params := by
  have h2 : 0 < dT2 := h1.trans h12
  simp only [calculate_cycles_to_failure] at hcl ⊢
  set E := Real.exp (params.Ea / (kb * (T_mean + 273.15))) with hE
  have hEpos : 0 < E := Real.exp_pos _
  have hraw1 : 1 < params.A * dT1 ^ (-params.n) * E := by
    rcases lt_max_iff.mp hcl with h | h
    · exact h
    · exact absurd h (lt_irrefl 1)
  have hx1 : 0 < dT1 ^ (-params.n) := Real.rpow_pos_of_pos h1 _
  have hApos : 0 < params.A := by
    by_contra hA
    push_neg at hA
    nlinarith [mul_pos hx1 hEpos]
  have hxlt : dT2 ^ (-params.n) < dT1 ^ (-params.n) := by
    rw [Real.rpow_neg h1.le, Real.rpow_neg h2.le]
    exact inv_strictAnti₀ (Real.rpow_pos_of_pos h1 _)
      (Real.rpow_lt_rpow h1.le h12 hn)
  have hraw2 : params.A * dT2 ^ (-params.n) * E <
      params.A * dT1 ^ (-params.n) * E :=
    mul_lt_mul_of_pos_right (mul_lt_mul_of_pos_left hxlt hApos) hEpos
  calc max (params.A * dT2 ^ (-params.n) * E) 1
      < params.A * dT1 ^ (-params.n) * E := max_lt hraw2 hraw1
    _ = max (params.A * dT1 ^ (-params.n) * E) 1 := (max_eq_left hraw1.le).symm

/-- C6 (witness): with `A = 10, n = 1, Ea = 0`, amplitude 1 gives
cycles-to-failure `10 > 1`, and the value at amplitude 2 is strictly
smaller. -/
theorem calculate_cycles_to_failure_strict_anti_witness :
    (0 : ℝ) < (LifetimeParams.mk 10 1 0).n ∧ (0 : ℝ) < 1 ∧ (1 : ℝ) < 2 ∧
    1 < calculate_cycles_to_failure 1 25 ⟨10, 1, 0⟩ ∧
    calculate_cycles_to_failure 2 25 ⟨10, 1, 0⟩ <
      calculate_cycles_to_failure 1 25 ⟨10, 1, 0⟩ := by
  have hcl : 1 < calculate_cycles_to_failure 1 25 ⟨10, 1, 0⟩ := by
    simp only [calculate_cycles_to_failure]
    rw [Real.rpow_neg_one, zero_div, Real.exp_zero]
    rw [max_eq_left (by norm_num)]
    norm_num
  exact ⟨by norm_num, by norm_num, by norm_num, hcl,
    calculate_cycles_to_failure_strict_anti ⟨10, 1, 0⟩ 25 1 2 (by norm_num)
      (by norm_num) (by norm_num) hcl⟩

/-- C10: whenever the rainflow extractor finds at least one cycle in a
junction-temperature trajectory, the end-to-end lifetime estimate is finite
(not the infinity branch) and at most 100 years: the Miner damage is floored
at `1e-10 > 0`, so the estimator takes the capped branch. -/
theorem estimate_lifetime_finite_of_cycles (sig : List ℚ) (p : LifetimeParams)
    (h : 1 ≤ (rainflow sig (1/10)).2) :
    (estimate_lifetime sig p).2.1 ≠ ⊤ ∧
      (estimate_lifetime sig p).2.1 ≤ ((100 : ℝ) : WithTop ℝ) := by
  have hne : (rainflow sig (1/10)).1 ≠ [] := by
    rw [rainflow_count_eq_length] at h
    exact List.length_pos_iff_ne_nil.mp h
  have hd : (1e-10 : ℝ) ≤ (miners_rule_degradation (rainflow sig (1/10)).1 p).1 := by
    rw [miners_rule_degradation, if_neg hne]
    exact le_max_right _ _
  have hdpos : (0:ℝ) < (miners_rule_degradation (rainflow sig (1/10)).1 p).1 :=
    lt_of_lt_of_le (by norm_num) hd
  have hly : (estimate_lifetime sig p).2.1 =
      ((min ((1 / (miners_rule_degradation (rainflow sig (1/10)).1 p).1) / 100000)
        100 : ℝ) : WithTop ℝ) := by
    show estimate_lifetime_years
      (miners_rule_degradation (rainflow sig (1/10)).1 p).1 100000 = _
    rw [estimate_lifetime_years, if_neg (not_le.mpr hdpos)]
  refine ⟨?_, ?_⟩
  · rw [hly]
    exact WithTop.coe_ne_top
  · rw [hly]
    exact WithTop.coe_le_coe.mpr (min_le_right _ _)

/-- C10 (witness): the trajectory `[0, 1, 0]` yields one cycle, and its
end-to-end lifetime estimate is finite and at most 100 years. -/
theorem estimate_lifetime_finite_of_cycles_witness :
    1 ≤ (rainflow [0, 1, 0] (1/10)).2 ∧
      (estimate_lifetime [0, 1, 0] ⟨1, 1, 0⟩).2.1 ≠ ⊤ ∧
      (estimate_lifetime [0, 1, 0] ⟨1, 1, 0⟩).2.1 ≤ ((100 : ℝ) : WithTop ℝ) := by
  have h : 1 ≤ (rainflow [0, 1, 0] (1/10)).2 := by
    simp only [rainflow_eval_unit_spike]
    exact le_refl 1
  exact ⟨h, estimate_lifetime_finite_of_cycles [0, 1, 0] ⟨1, 1, 0⟩ h⟩

/-- C7: the power-dissipation function returns exactly the claimed closed
forms: conduction loss with linearly temperature-scaled on-resistance,
switching loss from the four temperature-scaled energy terms times the
switching frequency, capacitive loss, and their sum as the total. -/
theorem calculate_power_dissipation_components (v_ds i_d t_j : ℚ)
    (p : MOSFETParams) (f_sw : ℚ) :
    calculate_power_dissipation v_ds i_d t_j p f_sw =
      (i_d ^ 2 * p.R_DS_ON_25 * (1 + p.R_DS_ON_TEMP_COEFF * (t_j - 25)) +
        (1/2 * v_ds * i_d * (p.T_ON_25 * (1 + p.K_T_SW * (t_j - 25))) +
          1/2 * v_ds * i_d * (p.T_OFF_25 * (1 + p.K_T_SW * (t_j - 25))) +
          p.E_OSS_25 * (1 + p.K_E_OSS * (t_j - 25)) +
          v_ds * (p.Q_RR_25 * (1 + p.K_Q_RR * (t_j - 25)))) * f_sw +
        1/2 * p.C_OSS * v_ds ^ 2 * f_sw,
       i_d ^ 2 * p.R_DS_ON_25 * (1 + p.R_DS_ON_TEMP_COEFF * (t_j - 25)),
       (1/2 * v_ds * i_d * (p.T_ON_25 * (1 + p.K_T_SW * (t_j - 25))) +
         1/2 * v_ds * i_d * (p.T_OFF_25 * (1 + p.K_T_SW * (t_j - 25))) +
         p.E_OSS_25 * (1 + p.K_E_OSS * (t_j - 25)) +
         v_ds * (p.Q_RR_25 * (1 + p.K_Q_RR * (t_j - 25)))) * f_sw,
       1/2 * p.C_OSS * v_ds ^ 2 * f_sw) := by
  simp only [calculate_power_dissipation, Prod.mk.injEq]
  and_intros <;> first
    | trivial
    | ring

/-- C1: at the two-node configuration with state `y = [0, 0]` (both nodes at
ambient) and `t_amb = 50`, the code's last-node derivative is `8000/189`, not
the `0` demanded by the claim's formula
`((y0 - y1)/R - y1/R)/C = ((0-0)/(9/8) - 0/(9/8))/(21/20) = 0`: the code's
ambient-conduction term is `(y[n-1] - t_amb)/R`, subtracting the ambient
temperature from a quantity that is already a rise above ambient. -/
theorem thermal_model_last_node_ambient_eval :
    thermal_model 0 [0, 0] paramsTwoNode (fun _ => 0) (fun _ => 0) 50 0 =
      [0, 8000/189] ∧
    ((0 - 0) / (9/8) - 0 / (9/8)) / (21/20) = (0 : ℚ) ∧ (8000/189 : ℚ) ≠ 0 := by
  refine ⟨?_, by norm_num, by norm_num⟩
  norm_num [thermal_model, non_linear_thermal_properties, calculate_power_dissipation,
    paramsTwoNode, List.range_succ]

/-- C2: at the three-node configuration `R_TH = [1, 2, 4]`, `C_TH = [1, 1, 1]`
with `t_amb = 25` (so the temperature scalings are exactly 1) and state
`y = [0, 1, 0]`, the code's interior-node derivative is
`((y0-y1)/R_TH[1] - (y1-y2)/R_TH[2])/C_TH[1] = -3/4`, whereas the claim's
formula `((y0-y1)/R_TH[0] - (y1-y2)/R_TH[1])/C_TH[1]` gives `-3/2`; in
particular the heat flow across the node0-node1 link is divided by `R_TH[0]`
in node 0's equation but by `R_TH[1]` in node 1's equation. -/
theorem thermal_model_interior_resistance_eval :
    thermal_model 0 [0, 1, 0] paramsThreeNode (fun _ => 0) (fun _ => 0) 25 0 =
      [1, -3/4, 13/2] ∧
    ((0 - 1) / 1 - (1 - 0) / 2) / 1 = (-3/2 : ℚ) ∧ (-3/4 : ℚ) ≠ (-3/2 : ℚ) := by
  refine ⟨?_, by norm_num, by norm_num⟩
  norm_num [thermal_model, non_linear_thermal_properties, calculate_power_dissipation,
    paramsThreeNode, List.range_succ]

/-- C8 (counterexample): a waveform whose times are not strictly increasing
(`[(0,0), (2,4), (1,1)]`) is accepted — the interpolator sorts the samples,
it does not fail — while a single-sample waveform fails (with scipy's generic
ValueError; no InvalidWaveformError class exists anywhere in the
repository). -/
theorem create_interpolation_nonmonotonic_counterexample :
    (create_interpolation_function [(0, 0), (2, 4), (1, 1)]).isOk = true ∧
    (create_interpolation_function [(0, 0)]).isOk = false :=
  ⟨rfl, rfl⟩

/-- C8 (amended): construction succeeds exactly when at least two samples are
supplied; non-monotonic times are sorted and accepted rather than rejected,
and the failure on fewer than two samples is the underlying library's generic
error, not a repository-defined InvalidWaveformError. -/
theorem create_interpolation_ok_iff_two_samples (w : List (ℚ × ℚ)) :
    (create_interpolation_function w).isOk = true ↔ 2 ≤ w.length := by
  by_cases h : w.length < 2
  · rw [create_interpolation_function, if_pos h]
    simp only [Except.isOk]
    constructor
    · intro hfalse
      cases hfalse
    · intro h2
      omega
  · rw [create_interpolation_function, if_neg h]
    simp only [Except.isOk]
    constructor
    · intro _
      omega
    · intro _
      rfl
